import Mathlib

/-!
Verification development for the story index generator
(code/lib/core-server/src/utils/StoryIndexGenerator.ts).

The definitions below are a shallow embedding of the generator: file paths
are strings, the per-specifier caches are association lists from absolute
path to a tagged cache entry (mirroring the JS object, which preserves
insertion order for string keys), and the external collaborators of the
generator (the per-file indexers, the documentation analyzer, the path
resolver of the platform and the sorter sortStoriesV7, all of which live
outside this file of the repository) are parameters of the model.
Thrown JS exceptions are modelled with Except.
-/

namespace Storybook

/-- File paths are modelled as strings. -/
abbrev Path := String

/-- Tags are free-form string labels. -/
abbrev Tag := String

/-- AUTODOCS_TAG constant (line 58 of the source). -/
def AUTODOCS_TAG : Tag := "autodocs"

/-- STORIES_MDX_TAG constant (line 59 of the source). -/
def STORIES_MDX_TAG : Tag := "stories-mdx"

/-- StoryIndexEntryWithMetaId: a story index entry, extended with the
optional csf meta id used for record keeping in extractDocs. -/
structure StoryEntry where
  id : String
  metaId : Option String
  name : String
  title : String
  importPath : Path
  tags : List Tag
deriving Repr, DecidableEq

/-- DocsIndexEntry: a docs index entry. -/
structure DocsEntry where
  id : String
  title : String
  name : String
  importPath : Path
  storiesImports : List Path
  tags : List Tag
deriving Repr, DecidableEq

/-- IndexEntry: the tagged union of story and docs entries. -/
inductive IndexEntry where
  | story (s : StoryEntry)
  | docs (d : DocsEntry)
deriving Repr, DecidableEq

/-- The id of an index entry. -/
def IndexEntry.id : IndexEntry → String
  | .story s => s.id
  | .docs d => d.id

/-- The importPath of an index entry. -/
def IndexEntry.importPath : IndexEntry → Path
  | .story s => s.importPath
  | .docs d => d.importPath

/-- Whether an index entry has type docs. -/
def IndexEntry.isDocs : IndexEntry → Bool
  | .story _ => false
  | .docs _ => true

/-- isMdxEntry (lines 63-65): was this docs entry generated by a .mdx file?
True when the tags contain neither AUTODOCS_TAG nor STORIES_MDX_TAG. -/
def isMdxEntry (d : DocsEntry) : Bool :=
  !d.tags.contains AUTODOCS_TAG && !d.tags.contains STORIES_MDX_TAG

/-- The autodocs configuration value: true, the string tag, or false. -/
inductive AutodocsOption where
  | enabled
  | byTag
  | disabled
deriving Repr, DecidableEq

/-- The docs options consumed by the generator: the autodocs mode and the
optional default docs entry name. -/
structure DocsOptions where
  autodocs : AutodocsOption
  defaultName : Option String
deriving Repr, DecidableEq

/-- IndexingError: a structured error carrying a message and the list of
offending file paths. -/
structure IndexingError where
  message : String
  paths : List Path
deriving Repr, DecidableEq

/-- chooseDuplicate (lines 452-524): resolve two processed entries that
collide on id. A thrown IndexingError is modelled as Except.error. -/
def chooseDuplicate (docs : DocsOptions) (firstEntry secondEntry : IndexEntry) :
    Except IndexingError IndexEntry :=
  if firstEntry.importPath = secondEntry.importPath then
    .ok firstEntry
  else
    let firstIsBetter : Bool :=
      match secondEntry, firstEntry with
      | .story _, _ => false
      | .docs d2, .docs d1 => !(isMdxEntry d2 && !isMdxEntry d1)
      | .docs _, .story _ => true
    let betterEntry := if firstIsBetter then firstEntry else secondEntry
    let worseEntry := if firstIsBetter then secondEntry else firstEntry
    match worseEntry with
    | .story _ =>
      .error ⟨"Duplicate stories with id: " ++ firstEntry.id,
        [firstEntry.importPath, secondEntry.importPath]⟩
    | .docs worseD =>
      match betterEntry with
      | .story betterS =>
        if docs.defaultName = some betterS.name then
          .error ⟨"You have a story for " ++ betterS.title ++
            " with the same name as your default docs entry name (" ++ betterS.name ++
            "), so the docs page is being dropped. Consider changing the story name.",
            [firstEntry.importPath, secondEntry.importPath]⟩
        else
          .error ⟨"You have a story for " ++ betterS.title ++
            " with the same name as your " ++
            (if isMdxEntry worseD then "component docs page"
             else "automatically generated docs page") ++
            " (" ++ worseD.name ++ "), so the docs page is being dropped.",
            [firstEntry.importPath, secondEntry.importPath]⟩
      | .docs betterD =>
        if isMdxEntry betterD then
          if isMdxEntry worseD then
            .error ⟨"You have two component docs pages with the same name " ++
              betterD.title ++ ":" ++ betterD.name ++ ".",
              [firstEntry.importPath, secondEntry.importPath]⟩
          else if worseD.tags.contains AUTODOCS_TAG &&
              !(docs.autodocs == AutodocsOption.enabled) then
            .error ⟨"You created a component docs page for " ++ worseD.title ++
              ", but also tagged the CSF file with " ++ AUTODOCS_TAG ++
              ". This is probably a mistake.",
              [betterD.importPath, worseD.importPath]⟩
          else
            .ok betterEntry
        else
          .ok (.docs { betterD with
            storiesImports := betterD.storiesImports ++ [worseD.importPath] ++
              worseD.storiesImports })

/-- Does this resolution result carry an error? -/
def isErr : Except IndexingError IndexEntry → Bool
  | .error _ => true
  | .ok _ => false

/-- The offending import paths of an erroring resolution (empty on success). -/
def errPaths : Except IndexingError IndexEntry → List Path
  | .error e => e.paths
  | .ok _ => []

/-- StoriesCacheEntry: the cache entry of an extracted story-bearing file,
holding its ordered index entries and the dependents back-edges (paths of
documentation files that depend on this file). -/
structure StoriesCacheEntry where
  entries : List IndexEntry
  dependents : List Path
deriving Repr, DecidableEq

/-- dep.entries[0].importPath, used at line 434 of the source to build
storiesImports. A story cache entry coming out of extractStories always has
at least one entry there; the empty case (a JS runtime crash) is mapped to
the empty string. -/
def headImportPath : List IndexEntry → Path
  | [] => ""
  | e :: _ => e.importPath

/-- The forEach loop of extractDocs (lines 384-398) when a meta-of reference
is present: each iteration reassigns
sortedDependencies = [dep, ...dependencies.filter(d fresh from dep)],
so the final value brings the LAST dependency to the front, whatever
dependency actually matched the reference. -/
def sortedDependenciesOf (dependencies : List StoriesCacheEntry) :
    List StoriesCacheEntry :=
  dependencies.foldl
    (fun _ dep => dep :: dependencies.filter (fun d => d ≠ dep)) dependencies

/-- The csfEntry assignment of the same loop: for each dependency with a
nonempty entry list, take its first non-docs entry and, when the platform
path test (normalize-resolve-startsWith, abstracted as isOfMatch) accepts
its importPath against the meta-of target, remember it. The last match of
the loop wins. -/
def csfEntryFold (isOfMatch : StoryEntry → Bool)
    (dependencies : List StoriesCacheEntry) : Option StoryEntry :=
  dependencies.foldl
    (fun acc dep =>
      if dep.entries.length > 0 then
        match dep.entries.find? (fun e => !e.isDocs) with
        | some (.story st) => if isOfMatch st then some st else acc
        | _ => acc
      else acc)
    none

/-- storiesImports of the produced docs entry (line 434): the import path of
the first entry of each dependency, in the order of sortedDependencies
(dependency discovery order without a meta-of reference, the reassigned
order of sortedDependenciesOf with one). -/
def extractDocsStoriesImports (hasOf : Bool)
    (dependencies : List StoriesCacheEntry) : List Path :=
  let sortedDependencies :=
    if hasOf then sortedDependenciesOf dependencies else dependencies
  sortedDependencies.map (fun dep => headImportPath dep.entries)

/-- CacheEntry: false (unprocessed) or an extracted stories, docs or error
entry. -/
inductive CacheEntry where
  | unprocessed
  | stories (se : StoriesCacheEntry)
  | docsEntry (d : DocsEntry)
  | errorEntry (e : IndexingError)
deriving Repr, DecidableEq

/-- One specifier cache: absolute path to cache entry, insertion ordered. -/
abbrev SpecifierCache := List (Path × CacheEntry)

/-- specifierToCache: specifiers are identified by their position, so the
map from specifier to its cache is an association list keyed by Nat. -/
abbrev Caches := List (Nat × SpecifierCache)

/-- cache lookup across the two levels. -/
def cacheLookup (caches : Caches) (sp : Nat) (p : Path) : Option CacheEntry :=
  (caches.lookup sp).bind (fun c => c.lookup p)

/-- isDocsMdx (lines 210-212): the regex (?<!\.stories)\.mdx$ with the i
flag holds of a path iff its lowercase form ends in ".mdx" but not in
".stories.mdx" (the lookbehind is case-insensitive as well). -/
def isDocsMdx (absolutePath : Path) : Bool :=
  let lower := absolutePath.data.map Char.toLower
  List.isSuffixOf ".mdx".data lower &&
    !(List.isSuffixOf ".stories.mdx".data lower)

/-- The external collaborators and configuration of one generator instance:
the oracle for extractStories (per-file indexers plus error capture into an
ErrorEntry, lines 186-203 and 268-344), the oracle for extractDocs
(file read plus documentation analyzer, lines 346-450; it may yield
unprocessed, as a template returns false), the docs options, and the
external sorter sortStoriesV7. -/
structure GenEnv where
  extractStoriesFn : Nat → Path → CacheEntry
  extractDocsFn : Nat → Path → CacheEntry
  docs : DocsOptions
  sortFn : List IndexEntry → List IndexEntry

/-- Apply an entry transformer at every slot of every specifier cache. -/
def mapCaches (f : Nat → Path → CacheEntry → CacheEntry) (caches : Caches) :
    Caches :=
  caches.map (fun sc => (sc.1, sc.2.map (fun pe => (pe.1, f sc.1 pe.1 pe.2))))

/-- First pass of ensureExtracted (lines 219-221): every unprocessed
non-docs-mdx file is extracted as a story file; docs-mdx files are left
unprocessed (the updater returns false on them). -/
def storiesPass (env : GenEnv) : Caches → Caches :=
  mapCaches (fun sp p e =>
    match e with
    | .unprocessed =>
      if isDocsMdx p then .unprocessed else env.extractStoriesFn sp p
    | _ => e)

/-- Second pass of ensureExtracted (lines 223-225): every still-unprocessed
file is extracted as a docs file. -/
def docsPass (env : GenEnv) : Caches → Caches :=
  mapCaches (fun sp p e =>
    match e with
    | .unprocessed => env.extractDocsFn sp p
    | _ => e)

/-- ensureExtracted (lines 214-248), extraction part: the stories pass
followed by the docs pass. -/
def ensureExtracted (env : GenEnv) (caches : Caches) : Caches :=
  docsPass env (storiesPass env caches)

/-- The flattened output of ensureExtracted: an index entry or an error. -/
inductive FlatItem where
  | entry (e : IndexEntry)
  | errorItem (e : IndexingError)
deriving Repr, DecidableEq

/-- Drop the meta id of a story entry, as the flattening does (line 243). -/
def StoryEntry.dropMeta (s : StoryEntry) : StoryEntry := { s with metaId := none }

/-- Flatten one cache entry (lines 235-246). -/
def flattenEntry : CacheEntry → List FlatItem
  | .unprocessed => []
  | .docsEntry d => [.entry (.docs d)]
  | .errorEntry e => [.errorItem e]
  | .stories se =>
    se.entries.map (fun it =>
      match it with
      | .docs d => .entry (.docs d)
      | .story s => .entry (.story s.dropMeta))

/-- Flatten every specifier cache in order (lines 227-247). -/
def flattenCaches (caches : Caches) : List FlatItem :=
  caches.flatMap (fun sc => sc.2.flatMap (fun pe => flattenEntry pe.2))

/-- Project the error of a flat item. -/
def FlatItem.errOf : FlatItem → Option IndexingError
  | .errorItem e => some e
  | .entry _ => none

/-- Project the index entry of a flat item. -/
def FlatItem.entryOf : FlatItem → Option IndexEntry
  | .entry e => some e
  | .errorItem _ => none

/-- The v4 story index: the version and the id-keyed ordered entry map. -/
structure StoryIndex where
  v : Nat
  entries : List (String × IndexEntry)
deriving Repr, DecidableEq

/-- MultipleIndexingError: the aggregate error thrown by getIndex. -/
structure MultipleIndexingError where
  errors : List IndexingError
deriving Repr, DecidableEq

/-- One generator instance: the specifier caches plus the memoized last
index and last error. -/
structure GenState where
  caches : Caches
  lastIndex : Option StoryIndex
  lastError : Option MultipleIndexingError
deriving Repr, DecidableEq

/-- Overwrite the value at an existing key of the id-keyed entry map; a JS
object keeps the original position of the key. -/
def assocSet (m : List (String × IndexEntry)) (k : String) (v : IndexEntry) :
    List (String × IndexEntry) :=
  m.map (fun kv => if kv.1 = k then (k, v) else kv)

/-- One step of the duplicate-resolution loop of getIndex (lines 558-569):
look the incoming entry up by id; resolve against the existing one if found
(keeping the existing entry and collecting the error when resolution
throws), insert otherwise. -/
def resolveStep (docs : DocsOptions)
    (acc : List (String × IndexEntry) × List IndexingError)
    (entry : IndexEntry) :
    List (String × IndexEntry) × List IndexingError :=
  match acc.1.lookup entry.id with
  | some existing =>
    match chooseDuplicate docs existing entry with
    | .ok merged => (assocSet acc.1 entry.id merged, acc.2)
    | .error e => (acc.1, acc.2 ++ [e])
  | none => (acc.1 ++ [(entry.id, entry)], acc.2)

/-- The duplicate-resolution loop over the flattened entry list. -/
def resolveDuplicates (docs : DocsOptions) (entries : List IndexEntry) :
    List (String × IndexEntry) × List IndexingError :=
  entries.foldl (resolveStep docs) ([], [])

/-- The recompute path of getIndex (lines 546-585): extract, flatten,
aggregate extraction errors, resolve duplicates, aggregate conflict
errors, sort, then memoize the index (success) or the error (failure). -/
def computeIndex (env : GenEnv) (s : GenState) :
    Except MultipleIndexingError StoryIndex × GenState :=
  let caches2 := ensureExtracted env s.caches
  let storiesList := flattenCaches caches2
  let errorList := storiesList.filterMap FlatItem.errOf
  if errorList.isEmpty then
    let entryList := storiesList.filterMap FlatItem.entryOf
    let resolved := resolveDuplicates env.docs entryList
    if resolved.2.isEmpty then
      let sorted := env.sortFn (resolved.1.map Prod.snd)
      let index : StoryIndex := ⟨4, sorted.map (fun e => (e.id, e))⟩
      (.ok index, { s with caches := caches2, lastIndex := some index })
    else
      let e : MultipleIndexingError := ⟨resolved.2⟩
      (.error e, { s with caches := caches2, lastError := some e })
  else
    let e : MultipleIndexingError := ⟨errorList⟩
    (.error e, { s with caches := caches2, lastError := some e })

/-- getIndex (lines 542-586): return the memoized index if set, rethrow the
memoized error if set, recompute otherwise. -/
def getIndex (env : GenEnv) (s : GenState) :
    Except MultipleIndexingError StoryIndex × GenState :=
  match s.lastIndex with
  | some index => (.ok index, s)
  | none =>
    match s.lastError with
    | some e => (.error e, s)
    | none => computeIndex env s

/-- The extraction errors a getIndex recompute would aggregate. -/
def extractionErrors (env : GenEnv) (caches : Caches) : List IndexingError :=
  (flattenCaches (ensureExtracted env caches)).filterMap FlatItem.errOf

/-- xs.splice(xs.indexOf(x), 1) on a JS array: remove the first occurrence
of x when present; indexOf yields -1 otherwise and splice(-1, 1) then
removes the last element. -/
def spliceRemove (xs : List Path) (x : Path) : List Path :=
  if xs.contains x then xs.erase x else xs.dropLast

/-- Match the pattern characters of a story import against a file name,
consuming one file-name character per pattern character; the regex built at
line 261 treats a dot of the import as the wildcard metacharacter. Yields
the unconsumed file-name suffix on success. -/
def wildPrefixMatch : List Char → List Char → Option (List Char)
  | [], rest => some rest
  | _ :: _, [] => none
  | pc :: ps, fc :: fs =>
    if pc = '.' ∨ pc = fc then wildPrefixMatch ps fs else none

/-- The test fileName.match(new RegExp(storyImport followed by an optional
dot-extension, anchored at both ends)) of findDependencies (line 261). -/
def importMatches (storyImport fileName : Path) : Bool :=
  match wildPrefixMatch storyImport.data fileName.data with
  | none => false
  | some [] => true
  | some (c :: rest) => c = '.' && !rest.isEmpty && rest.all (fun ch => ch ≠ '.')

/-- Does a cached file name match any of the absolute imports? -/
def matchesStoriesFile (absoluteImports : List Path) (fileName : Path) : Bool :=
  absoluteImports.any (fun imp => importMatches imp fileName)

/-- findDependencies (lines 250-266): every stories cache entry, in any
specifier cache, whose file name matches one of the absolute imports. -/
def findDependencies (caches : Caches) (absoluteImports : List Path) :
    List StoriesCacheEntry :=
  caches.flatMap (fun sc =>
    sc.2.filterMap (fun pe =>
      match pe.2 with
      | .stories se =>
        if matchesStoriesFile absoluteImports pe.1 then some se else none
      | _ => none))

/-- The dependency-edge recording of extractDocs (lines 411-414):
dependencies.forEach(dep appends the absolute path of the docs file to
dep.dependents). The matched stories cache entries are mutated in place. -/
def extractDocsPush (absoluteImports : List Path) (docPath : Path) :
    Caches → Caches :=
  mapCaches (fun _ p e =>
    match e with
    | .stories se =>
      if matchesStoriesFile absoluteImports p then
        .stories { se with dependents := se.dependents ++ [docPath] }
      else e
    | _ => e)

/-- Step one of invalidate (lines 598-612): reset every dependent of the
invalidated stories entry to unprocessed, in every specifier cache where it
is present. -/
def setUnprocessedForDependents (dependents : List Path) : Caches → Caches :=
  mapCaches (fun _ p e => if dependents.contains p then .unprocessed else e)

/-- The edge teardown of invalidate for a removed docs entry
(lines 615-623): splice the removed path out of the dependents of every
matched dependency. -/
def removeDependentEdges (absoluteImports : List Path) (absolutePath : Path) :
    Caches → Caches :=
  mapCaches (fun _ p e =>
    match e with
    | .stories se =>
      if matchesStoriesFile absoluteImports p then
        .stories { se with dependents := spliceRemove se.dependents absolutePath }
      else e
    | _ => e)

/-- cache[absolutePath] = value on a JS object: overwrite in place when the
key exists, append otherwise. -/
def assocSetOrAdd (c : SpecifierCache) (p : Path) (v : CacheEntry) :
    SpecifierCache :=
  if c.any (fun pe => pe.1 = p) then
    c.map (fun pe => if pe.1 = p then (p, v) else pe)
  else c ++ [(p, v)]

/-- Write one extraction result into the cache of a specifier, as
updateExtracted does at line 188. -/
def writeCacheEntry (caches : Caches) (spec : Nat) (p : Path) (v : CacheEntry) :
    Caches :=
  caches.map (fun sc =>
    (sc.1, if sc.1 = spec then assocSetOrAdd sc.2 p v else sc.2))

/-- invalidate (lines 588-630). resolveImport abstracts the platform call
slash(path.resolve(workingDir, importPath)) that turns a stored import path
back into an absolute path. -/
def invalidate (resolveImport : Path → Path) (spec : Nat) (absolutePath : Path)
    (removed : Bool) (s : GenState) : GenState :=
  let cache := (s.caches.lookup spec).getD []
  let cacheEntry := cache.lookup absolutePath
  let caches1 :=
    match cacheEntry with
    | some (.stories se) => setUnprocessedForDependents se.dependents s.caches
    | _ => s.caches
  let caches2 :=
    if removed then
      let caches3 :=
        match cacheEntry with
        | some (.docsEntry d) =>
          removeDependentEdges (d.storiesImports.map resolveImport)
            absolutePath caches1
        | _ => caches1
      caches3.map (fun sc =>
        (sc.1, if sc.1 = spec then
          sc.2.filter (fun pe => pe.1 ≠ absolutePath) else sc.2))
    else
      caches1.map (fun sc =>
        (sc.1, if sc.1 = spec then
          assocSetOrAdd sc.2 absolutePath CacheEntry.unprocessed else sc.2))
  { caches := caches2, lastIndex := none, lastError := none }

/-- A concrete generator environment whose docs extractor produces one
fixed docs entry and whose stories extractor produces an error entry. -/
def w9env : GenEnv :=
  ⟨fun _ _ => .errorEntry ⟨"no matching indexer", ["./c.mdx"]⟩,
   fun _ _ => .docsEntry ⟨"c--docs", "C", "Docs", "./c.mdx", [],
     ["unattached-mdx", "docs"]⟩,
   ⟨.byTag, some "Docs"⟩,
   fun l => l⟩

/-- A concrete generator environment over no files, with the identity
sorter. -/
def w2env : GenEnv :=
  ⟨fun _ _ => .errorEntry ⟨"unused", []⟩,
   fun _ _ => .unprocessed,
   ⟨.byTag, some "Docs"⟩,
   fun l => l⟩

/-- A concrete generator environment whose stories extractor fails. -/
def w8env : GenEnv :=
  ⟨fun _ _ => .errorEntry ⟨"boom", ["./a.stories.ts"]⟩,
   fun _ _ => .unprocessed,
   ⟨.byTag, some "Docs"⟩,
   fun l => l⟩

/-- A concrete story entry of the file S. -/
def w6story : StoryEntry := ⟨"s--p", none, "P", "S", "./S.stories.ts", ["story"]⟩

/-- A concrete stories cache entry for S with the docs file D recorded as a
dependent. -/
def w6se : StoriesCacheEntry := ⟨[.story w6story], ["/w/D.mdx"]⟩

/-- A concrete docs entry for D importing S. -/
def w6docs : DocsEntry :=
  ⟨"s--docs", "S", "Docs", "./D.mdx", ["/w/S.stories.ts"],
   ["attached-mdx", "docs"]⟩

/-- A concrete generator state holding S (extracted, with dependent D) and
D (extracted docs). -/
def w6state : GenState :=
  ⟨[(0, [("/w/S.stories.ts", .stories w6se), ("/w/D.mdx", .docsEntry w6docs)])],
   none, none⟩

/-- A concrete story entry of the file S7. -/
def w7story : StoryEntry :=
  ⟨"s7--p", none, "P", "S7", "./S7.stories.ts", ["story"]⟩

/-- A concrete docs entry for D7 importing S7. -/
def w7docs : DocsEntry :=
  ⟨"s7--docs", "S7", "Docs", "./D7.mdx", ["/w/S7.stories.ts"],
   ["attached-mdx", "docs"]⟩

/-- A concrete cache state holding extracted S7 (no dependents yet) and a
discovered, unprocessed docs file D7. -/
def w7caches : Caches :=
  [(0, [("/w/S7.stories.ts", .stories ⟨[.story w7story], []⟩),
        ("/w/D7.mdx", .unprocessed)])]

/-- The reachable duplicate-edge state: starting from w7caches, the docs
file D7 is extracted (edge pushed onto the dependents of S7, result
written), invalidated as a changed file (removed = false, which removes no
edges), and re-extracted (second push, result written), leaving S7 with a
dependents list holding the path of D7 twice. -/
def w6dupState : GenState :=
  ⟨writeCacheEntry
    (extractDocsPush ["/w/S7.stories.ts"] "/w/D7.mdx"
      (invalidate (fun p => p) 0 "/w/D7.mdx" false
        ⟨writeCacheEntry
          (extractDocsPush ["/w/S7.stories.ts"] "/w/D7.mdx" w7caches)
          0 "/w/D7.mdx" (.docsEntry w7docs), none, none⟩).caches)
    0 "/w/D7.mdx" (.docsEntry w7docs), none, none⟩

/-- C1 counterexample: a concrete story entry and a concrete generated
(non-mdx) docs entry sharing an id but not an import path make
chooseDuplicate throw an IndexingError, against the claim that the story
entry is returned and no error is raised. -/
theorem chooseDuplicate_story_vs_generated_cex :
    isErr (chooseDuplicate ⟨.byTag, some "Docs"⟩
      (.story ⟨"comp--primary", none, "Primary", "Comp",
        "./src/A.stories.ts", ["story"]⟩)
      (.docs ⟨"comp--primary", "Comp", "Primary", "./src/B.stories.ts", [],
        ["docs", "autodocs"]⟩)) = true := by
  decide

/-- C1 (amended): whenever a story entry collides with a generated
(non-mdx) docs entry on a distinct import path, chooseDuplicate raises an
IndexingError naming both import paths in first-seen order, in either
argument order; the story entry is never returned silently. -/
theorem chooseDuplicate_story_docs_errors (opts : DocsOptions)
    (s : StoryEntry) (d : DocsEntry)
    (_hmdx : isMdxEntry d = false) (hne : s.importPath ≠ d.importPath) :
    isErr (chooseDuplicate opts (.story s) (.docs d)) = true ∧
    errPaths (chooseDuplicate opts (.story s) (.docs d)) =
      [s.importPath, d.importPath] ∧
    isErr (chooseDuplicate opts (.docs d) (.story s)) = true ∧
    errPaths (chooseDuplicate opts (.docs d) (.story s)) =
      [d.importPath, s.importPath] := by
  have hne' : d.importPath ≠ s.importPath := fun h => hne h.symm
  refine ⟨?_, ?_, ?_, ?_⟩ <;>
  · simp only [chooseDuplicate, IndexEntry.importPath]
    first
      | rw [if_neg hne]
      | rw [if_neg hne']
    by_cases hdn : opts.defaultName = some s.name <;>
      simp [hdn, isErr, errPaths]

/-- C1 witness: the amended theorem applied at a concrete input. -/
theorem chooseDuplicate_story_docs_errors_witness :
    isErr (chooseDuplicate ⟨.byTag, some "Docs"⟩
      (.story ⟨"w1--primary", none, "Primary", "W1",
        "./w/A.stories.ts", ["story"]⟩)
      (.docs ⟨"w1--primary", "W1", "Primary", "./w/B.stories.ts", [],
        ["docs", "autodocs"]⟩)) = true :=
  (chooseDuplicate_story_docs_errors ⟨.byTag, some "Docs"⟩
    ⟨"w1--primary", none, "Primary", "W1", "./w/A.stories.ts", ["story"]⟩
    ⟨"w1--primary", "W1", "Primary", "./w/B.stories.ts", [],
      ["docs", "autodocs"]⟩
    (by decide) (by decide)).1

/-- C4: two colliding generated (non-mdx) docs pages with distinct import
paths merge without error: the first-seen entry keeps its own id, name
and importPath, and the merged storiesImports is the winner list then by
the loser importPath followed by the loser list. -/
theorem chooseDuplicate_merges_generated_docs (opts : DocsOptions)
    (d1 d2 : DocsEntry)
    (h1 : isMdxEntry d1 = false) (h2 : isMdxEntry d2 = false)
    (hne : d1.importPath ≠ d2.importPath) :
    chooseDuplicate opts (.docs d1) (.docs d2) =
      .ok (.docs { d1 with storiesImports :=
        d1.storiesImports ++ [d2.importPath] ++ d2.storiesImports }) := by
  simp only [chooseDuplicate, IndexEntry.importPath]
  rw [if_neg hne]
  simp [h1, h2]

/-- C4 witness: the merge theorem applied at a concrete input. -/
theorem chooseDuplicate_merges_generated_docs_witness :
    chooseDuplicate ⟨.enabled, some "Docs"⟩
      (.docs ⟨"t--docs", "T", "Docs", "./w/C.stories.ts",
        [], ["docs", "autodocs"]⟩)
      (.docs ⟨"t--docs", "T", "Docs", "./w/D.stories.ts",
        ["./w/E.stories.ts"], ["docs", "autodocs"]⟩) =
      .ok (.docs ⟨"t--docs", "T", "Docs", "./w/C.stories.ts",
        [] ++ ["./w/D.stories.ts"] ++ ["./w/E.stories.ts"],
        ["docs", "autodocs"]⟩) :=
  chooseDuplicate_merges_generated_docs ⟨.enabled, some "Docs"⟩
    ⟨"t--docs", "T", "Docs", "./w/C.stories.ts", [], ["docs", "autodocs"]⟩
    ⟨"t--docs", "T", "Docs", "./w/D.stories.ts", ["./w/E.stories.ts"],
      ["docs", "autodocs"]⟩
    (by decide) (by decide) (by decide)

/-- C5 counterexample: a concrete mdx docs entry colliding with a concrete
generated page that carries the autodocs tag, under an autodocs setting
other than true, makes chooseDuplicate throw, against the claim that the
mdx entry always wins with no error. -/
theorem chooseDuplicate_mdx_vs_generated_cex :
    isErr (chooseDuplicate ⟨.byTag, some "Docs"⟩
      (.docs ⟨"comp--docs", "Comp", "Docs", "./src/A.mdx", [],
        ["unattached-mdx", "docs"]⟩)
      (.docs ⟨"comp--docs", "Comp", "Docs", "./src/B.stories.ts", [],
        ["docs", "autodocs"]⟩)) = true := by
  decide

/-- C5 (amended): when an mdx docs entry collides with a generated (non-mdx)
docs entry on a distinct import path, the result is symmetric in argument
order and the mdx entry wins without error, unless the generated entry is
tagged autodocs while the autodocs option is not true, in which case an
IndexingError naming both import paths (mdx first) is raised. -/
theorem chooseDuplicate_mdx_beats_generated (opts : DocsOptions)
    (d1 d2 : DocsEntry)
    (h1 : isMdxEntry d1 = true) (h2 : isMdxEntry d2 = false)
    (hne : d1.importPath ≠ d2.importPath) :
    chooseDuplicate opts (.docs d2) (.docs d1) =
      chooseDuplicate opts (.docs d1) (.docs d2) ∧
    (if d2.tags.contains AUTODOCS_TAG ∧ opts.autodocs ≠ AutodocsOption.enabled
     then
      isErr (chooseDuplicate opts (.docs d1) (.docs d2)) = true ∧
      errPaths (chooseDuplicate opts (.docs d1) (.docs d2)) =
        [d1.importPath, d2.importPath]
     else
      chooseDuplicate opts (.docs d1) (.docs d2) = .ok (.docs d1)) := by
  have hne' : d2.importPath ≠ d1.importPath := fun h => hne h.symm
  constructor
  · simp only [chooseDuplicate, IndexEntry.importPath]
    rw [if_neg hne', if_neg hne]
    simp [h1, h2]
  · split
    case isTrue h =>
      have hc : AUTODOCS_TAG ∈ d2.tags := by
        have := h.1
        simpa using this
      have ha : (opts.autodocs == AutodocsOption.enabled) = false :=
        beq_eq_false_iff_ne.mpr h.2
      simp only [chooseDuplicate, IndexEntry.importPath]
      rw [if_neg hne]
      simp [h1, h2, hc, ha, isErr, errPaths]
    case isFalse h =>
      simp only [chooseDuplicate, IndexEntry.importPath]
      rw [if_neg hne]
      by_cases hc : AUTODOCS_TAG ∈ d2.tags
      · have ha : opts.autodocs = AutodocsOption.enabled := by
          by_contra hx
          exact h ⟨by simpa using hc, hx⟩
        simp [h1, h2, hc, ha]
      · simp [h1, h2, hc]

/-- C5 witness: the amended theorem applied at a concrete input on which
the exceptional autodocs-tag branch is not taken. -/
theorem chooseDuplicate_mdx_beats_generated_witness :
    chooseDuplicate ⟨.enabled, some "Docs"⟩
      (.docs ⟨"w5--docs", "W5", "Docs", "./w/B5.stories.ts", [],
        ["docs", "autodocs"]⟩)
      (.docs ⟨"w5--docs", "W5", "Docs", "./w/A5.mdx", [],
        ["unattached-mdx", "docs"]⟩) =
      chooseDuplicate ⟨.enabled, some "Docs"⟩
        (.docs ⟨"w5--docs", "W5", "Docs", "./w/A5.mdx", [],
          ["unattached-mdx", "docs"]⟩)
        (.docs ⟨"w5--docs", "W5", "Docs", "./w/B5.stories.ts", [],
          ["docs", "autodocs"]⟩) :=
  (chooseDuplicate_mdx_beats_generated ⟨.enabled, some "Docs"⟩
    ⟨"w5--docs", "W5", "Docs", "./w/A5.mdx", [], ["unattached-mdx", "docs"]⟩
    ⟨"w5--docs", "W5", "Docs", "./w/B5.stories.ts", [], ["docs", "autodocs"]⟩
    (by decide) (by decide) (by decide)).1

/-- C3: evaluating the meta-of dependency reordering at a failing input.
Two dependencies are discovered in the order A, B; the meta-of reference
resolves to A (csfEntryFold returns the story of A), yet the produced
storiesImports list puts B first, because the loop reassigns the reordered
list for every dependency and the last one wins. The claim expects the
meta-of import path "./src/A.stories.ts" first. -/
theorem extractDocs_meta_of_not_first :
    csfEntryFold (fun st => st.importPath == "./src/A.stories.ts")
      [⟨[.story ⟨"a--primary", some "a", "Primary", "A",
          "./src/A.stories.ts", ["story"]⟩], []⟩,
       ⟨[.story ⟨"b--primary", some "b", "Primary", "B",
          "./src/B.stories.ts", ["story"]⟩], []⟩] =
      some ⟨"a--primary", some "a", "Primary", "A",
        "./src/A.stories.ts", ["story"]⟩ ∧
    extractDocsStoriesImports true
      [⟨[.story ⟨"a--primary", some "a", "Primary", "A",
          "./src/A.stories.ts", ["story"]⟩], []⟩,
       ⟨[.story ⟨"b--primary", some "b", "Primary", "B",
          "./src/B.stories.ts", ["story"]⟩], []⟩] =
      ["./src/B.stories.ts", "./src/A.stories.ts"] ∧
    ("./src/B.stories.ts" : Path) ≠ "./src/A.stories.ts" := by
  decide

/-- Lookup commutes with a key-preserving map over an association list. -/
theorem lookup_map_pair {α β γ : Type _} [BEq α] [LawfulBEq α]
    (l : List (α × β)) (f : α → β → γ) (k : α) :
    (l.map (fun pe => (pe.1, f pe.1 pe.2))).lookup k = (l.lookup k).map (f k) := by
  induction l with
  | nil => rfl
  | cons hd tl ih =>
    obtain ⟨a, b⟩ := hd
    simp only [List.map_cons, List.lookup]
    cases hab : k == a with
    | true =>
      have : k = a := eq_of_beq hab
      subst this
      rfl
    | false => simpa using ih

/-- Cache lookup commutes with mapCaches. -/
theorem cacheLookup_mapCaches (f : Nat → Path → CacheEntry → CacheEntry)
    (caches : Caches) (sp : Nat) (p : Path) :
    cacheLookup (mapCaches f caches) sp p =
      (cacheLookup caches sp p).map (f sp p) := by
  unfold cacheLookup mapCaches
  rw [lookup_map_pair caches
    (fun n c => c.map (fun pe => (pe.1, f n pe.1 pe.2))) sp]
  cases caches.lookup sp with
  | none => rfl
  | some c => simpa using lookup_map_pair c (f sp) p

/-- Cache lookup through a per-specifier transformation of the caches. -/
theorem cacheLookup_mapSpec (F : Nat → SpecifierCache → SpecifierCache)
    (caches : Caches) (sp : Nat) (p : Path) :
    cacheLookup (caches.map (fun sc => (sc.1, F sc.1 sc.2))) sp p =
      (caches.lookup sp).bind (fun c => (F sp c).lookup p) := by
  unfold cacheLookup
  rw [lookup_map_pair caches F sp]
  cases caches.lookup sp <;> rfl

/-- C9: a discovered, still unprocessed file is extracted by the docs pass
exactly when isDocsMdx accepts it (its lowercased path ends in ".mdx" but
not in ".stories.mdx"); otherwise it is extracted by the stories pass in
pass one. Moreover the resulting entry of a non-docs-mdx path does not
depend on the docs extractor at all, and the entry of a docs-mdx path does
not depend on the stories extractor, so a ".stories.mdx" file is never
handed to extractDocs and a docs file is never handed to extractStories. -/
theorem ensureExtracted_routes (env : GenEnv)
    (hS : ∀ sp p, env.extractStoriesFn sp p ≠ CacheEntry.unprocessed)
    (caches : Caches) (sp : Nat) (p : Path)
    (hU : cacheLookup caches sp p = some CacheEntry.unprocessed) :
    cacheLookup (ensureExtracted env caches) sp p =
      some (if isDocsMdx p then env.extractDocsFn sp p
            else env.extractStoriesFn sp p) ∧
    (isDocsMdx p = false → ∀ g,
      cacheLookup (ensureExtracted { env with extractDocsFn := g } caches) sp p =
        some (env.extractStoriesFn sp p)) ∧
    (isDocsMdx p = true → ∀ g,
      cacheLookup
          (ensureExtracted { env with extractStoriesFn := g } caches) sp p =
        some (env.extractDocsFn sp p)) := by
  have key : ∀ (e : GenEnv),
      (isDocsMdx p = false → e.extractStoriesFn sp p ≠ CacheEntry.unprocessed) →
      cacheLookup (ensureExtracted e caches) sp p =
        some (if isDocsMdx p then e.extractDocsFn sp p
              else e.extractStoriesFn sp p) := by
    intro e he
    unfold ensureExtracted docsPass storiesPass
    rw [cacheLookup_mapCaches, cacheLookup_mapCaches, hU]
    cases hd : isDocsMdx p with
    | true => simp [hd]
    | false =>
      simp only [hd, Option.map_some', Bool.false_eq_true, if_false]
      cases hv : e.extractStoriesFn sp p with
      | unprocessed => exact absurd hv (he hd)
      | stories se => rfl
      | docsEntry d => rfl
      | errorEntry er => rfl
  refine ⟨key env (fun _ => hS sp p), ?_, ?_⟩
  · intro hf g
    rw [key { env with extractDocsFn := g } (fun _ => hS sp p)]
    simp [hf]
  · intro ht g
    rw [key { env with extractStoriesFn := g }
      (fun hf => absurd ht (by simp [hf]))]
    simp [ht]

/-- C9 witness: the routing theorem applied at a concrete docs file. -/
theorem ensureExtracted_routes_witness :
    cacheLookup (ensureExtracted w9env [(0, [("/w/c.mdx", .unprocessed)])])
        0 "/w/c.mdx" =
      some (if isDocsMdx "/w/c.mdx" then w9env.extractDocsFn 0 "/w/c.mdx"
            else w9env.extractStoriesFn 0 "/w/c.mdx") :=
  (ensureExtracted_routes w9env (fun _ _ h => CacheEntry.noConfusion h)
    [(0, [("/w/c.mdx", .unprocessed)])] 0 "/w/c.mdx" rfl).1

/-- getIndex returns the memoized index when one is set. -/
theorem getIndex_of_lastIndex (env : GenEnv) (s : GenState) (i : StoryIndex)
    (h : s.lastIndex = some i) : getIndex env s = (.ok i, s) := by
  unfold getIndex
  rw [h]

/-- getIndex rethrows the memoized error when one is set and no index is. -/
theorem getIndex_of_lastError (env : GenEnv) (s : GenState)
    (e : MultipleIndexingError) (hi : s.lastIndex = none)
    (he : s.lastError = some e) : getIndex env s = (.error e, s) := by
  unfold getIndex
  rw [hi, he]

/-- getIndex recomputes when neither memoized value is set. -/
theorem getIndex_of_empty_memo (env : GenEnv) (s : GenState)
    (hi : s.lastIndex = none) (he : s.lastError = none) :
    getIndex env s = computeIndex env s := by
  unfold getIndex
  rw [hi, he]

/-- computeIndex either succeeds, memoizing the produced index, or fails,
memoizing the produced aggregate error; the caches are updated to the
extracted ones either way. -/
theorem computeIndex_cases (env : GenEnv) (s : GenState) :
    (∃ index, computeIndex env s = (.ok index,
      { s with caches := ensureExtracted env s.caches,
               lastIndex := some index })) ∨
    (∃ e, computeIndex env s = (.error e,
      { s with caches := ensureExtracted env s.caches,
               lastError := some e })) := by
  unfold computeIndex
  dsimp only
  split
  · split
    · exact .inl ⟨_, rfl⟩
    · exact .inr ⟨_, rfl⟩
  · exact .inr ⟨_, rfl⟩

/-- C2: if a getIndex call succeeds, a second getIndex call on the
resulting state returns the identical index and leaves the state
(including every cache entry) unchanged, performing no re-extraction. -/
theorem getIndex_idempotent (env : GenEnv) (s : GenState) (index : StoryIndex)
    (h : (getIndex env s).1 = .ok index) :
    getIndex env (getIndex env s).2 = (.ok index, (getIndex env s).2) := by
  cases hLI : s.lastIndex with
  | some i =>
    rw [getIndex_of_lastIndex env s i hLI] at h ⊢
    simp only at h
    rw [Except.ok.injEq] at h
    subst h
    exact getIndex_of_lastIndex env s i hLI
  | none =>
    cases hLE : s.lastError with
    | some e =>
      rw [getIndex_of_lastError env s e hLI hLE] at h
      simp at h
    | none =>
      rw [getIndex_of_empty_memo env s hLI hLE] at h ⊢
      rcases computeIndex_cases env s with ⟨i, hc⟩ | ⟨e, hc⟩
      · rw [hc] at h ⊢
        simp only at h
        rw [Except.ok.injEq] at h
        subst h
        exact getIndex_of_lastIndex env _ i rfl
      · rw [hc] at h
        simp at h

/-- C2 witness: the idempotence theorem applied to a generator with no
files, whose first getIndex call yields the empty index. -/
theorem getIndex_idempotent_witness :
    getIndex w2env (getIndex w2env ⟨[], none, none⟩).2 =
      (.ok ⟨4, []⟩, (getIndex w2env ⟨[], none, none⟩).2) :=
  getIndex_idempotent w2env ⟨[], none, none⟩ ⟨4, []⟩ rfl

/-- C8: whenever getIndex fails, the aggregate error is memoized as the
last error, a repeated getIndex call rethrows the identical error without
recomputing (the state, caches included, is unchanged), and any invalidate
call clears both the memoized index and the memoized error. -/
theorem getIndex_error_memoized (env : GenEnv) (s : GenState)
    (e : MultipleIndexingError) (h : (getIndex env s).1 = .error e) :
    (getIndex env s).2.lastError = some e ∧
    (getIndex env s).2.lastIndex = none ∧
    getIndex env (getIndex env s).2 = (.error e, (getIndex env s).2) ∧
    (∀ resolveImport spec p removed,
      (invalidate resolveImport spec p removed (getIndex env s).2).lastIndex =
        none ∧
      (invalidate resolveImport spec p removed (getIndex env s).2).lastError =
        none) := by
  cases hLI : s.lastIndex with
  | some i =>
    rw [getIndex_of_lastIndex env s i hLI] at h
    simp at h
  | none =>
    cases hLE : s.lastError with
    | some e' =>
      rw [getIndex_of_lastError env s e' hLI hLE] at h ⊢
      simp only at h
      rw [Except.error.injEq] at h
      subst h
      refine ⟨hLE, hLI, getIndex_of_lastError env s e' hLI hLE, ?_⟩
      intro resolveImport spec p removed
      exact ⟨rfl, rfl⟩
    | none =>
      rw [getIndex_of_empty_memo env s hLI hLE] at h ⊢
      rcases computeIndex_cases env s with ⟨i, hc⟩ | ⟨e', hc⟩
      · rw [hc] at h
        simp at h
      · rw [hc] at h ⊢
        simp only at h
        rw [Except.error.injEq] at h
        subst h
        refine ⟨rfl, hLI, ?_, ?_⟩
        · exact getIndex_of_lastError env _ e' hLI rfl
        · intro resolveImport spec p removed
          exact ⟨rfl, rfl⟩

/-- C8 witness: the memoization theorem applied to a generator holding one
story file whose extraction failed. -/
theorem getIndex_error_memoized_witness :
    (getIndex w8env ⟨[(0, [("/w/a.stories.ts", .unprocessed)])], none,
      none⟩).2.lastError = some ⟨[⟨"boom", ["./a.stories.ts"]⟩]⟩ :=
  (getIndex_error_memoized w8env
    ⟨[(0, [("/w/a.stories.ts", .unprocessed)])], none, none⟩
    ⟨[⟨"boom", ["./a.stories.ts"]⟩]⟩ rfl).1

/-- C10: when at least one cache entry holds an extraction error after
extraction, getIndex (with empty memo) throws an aggregate error wrapping
exactly the extraction errors, in cache order, and its whole result is
unchanged under any replacement of the docs options (the input of
duplicate resolution) and of the sorter, so neither duplicate resolution
nor sorting influences that call. -/
theorem getIndex_aggregates_extraction_errors (env : GenEnv) (s : GenState)
    (hI : s.lastIndex = none) (hE : s.lastError = none)
    (hErr : extractionErrors env s.caches ≠ []) :
    (getIndex env s).1 = .error ⟨extractionErrors env s.caches⟩ ∧
    (∀ docsOpts sortFn,
      getIndex { env with docs := docsOpts, sortFn := sortFn } s =
        getIndex env s) := by
  have hb : (extractionErrors env s.caches).isEmpty = false := by
    cases hx : extractionErrors env s.caches with
    | nil => exact absurd hx hErr
    | cons a l => rfl
  unfold extractionErrors at hb
  constructor
  · rw [getIndex_of_empty_memo env s hI hE]
    unfold computeIndex
    dsimp only
    rw [if_neg (by rw [hb]; exact Bool.false_ne_true)]
    rfl
  · intro docsOpts sortFn
    rw [getIndex_of_empty_memo _ s hI hE, getIndex_of_empty_memo env s hI hE]
    unfold computeIndex
    dsimp only
    have hsame :
        ensureExtracted { env with docs := docsOpts, sortFn := sortFn }
          s.caches = ensureExtracted env s.caches := rfl
    rw [hsame, if_neg (by rw [hb]; exact Bool.false_ne_true),
      if_neg (by rw [hb]; exact Bool.false_ne_true)]

/-- C10 witness: the aggregation theorem applied to a generator holding one
story file whose extraction failed. -/
theorem getIndex_aggregates_extraction_errors_witness :
    (getIndex w8env ⟨[(0, [("/w/a.stories.ts", .unprocessed)])], none,
      none⟩).1 =
      .error ⟨extractionErrors w8env [(0, [("/w/a.stories.ts",
        .unprocessed)])]⟩ :=
  (getIndex_aggregates_extraction_errors w8env
    ⟨[(0, [("/w/a.stories.ts", .unprocessed)])], none, none⟩
    rfl rfl (by decide)).1

/-- Appending a single pair with a different key does not change a lookup. -/
theorem lookup_append_single_ne (c : SpecifierCache) (a p : Path)
    (v : CacheEntry) (h : p ≠ a) :
    (c ++ [(a, v)]).lookup p = c.lookup p := by
  have hpa : (p == a) = false := beq_eq_false_iff_ne.mpr h
  rw [List.lookup_append]
  have h2 : (([(a, v)] : SpecifierCache).lookup p) = none := by
    rw [List.lookup_cons, hpa]
    rfl
  rw [h2, Option.or_none]

/-- Overwriting the value at a different key does not change a lookup. -/
theorem lookup_map_overwrite_ne (c : SpecifierCache) (a p : Path)
    (v : CacheEntry) (h : p ≠ a) :
    (c.map (fun pe => if pe.1 = a then (a, v) else pe)).lookup p =
      c.lookup p := by
  induction c with
  | nil => rfl
  | cons hd tl ih =>
    obtain ⟨b, w⟩ := hd
    simp only [List.map_cons]
    by_cases hb : b = a
    · subst hb
      have h1 : (if (b, w).1 = b then (b, v) else (b, w)) = (b, v) :=
        if_pos rfl
      have hpb : (p == b) = false := beq_eq_false_iff_ne.mpr h
      rw [h1, List.lookup_cons, List.lookup_cons, hpb]
      exact ih
    · have h1 : (if (b, w).1 = a then (a, v) else (b, w)) = (b, w) :=
        if_neg hb
      rw [h1, List.lookup_cons, List.lookup_cons]
      cases hpb : p == b with
      | true => rfl
      | false => exact ih

/-- Filtering a different key out does not change a lookup. -/
theorem lookup_filter_ne (c : SpecifierCache) (a p : Path) (h : p ≠ a) :
    (c.filter (fun pe => pe.1 ≠ a)).lookup p = c.lookup p := by
  induction c with
  | nil => rfl
  | cons hd tl ih =>
    obtain ⟨b, w⟩ := hd
    by_cases hb : b = a
    · subst hb
      have h1 : ((b, w) :: tl).filter (fun pe => pe.1 ≠ b) =
          tl.filter (fun pe => pe.1 ≠ b) := by
        rw [List.filter_cons, if_neg (by simp)]
      have hpb : (p == b) = false := beq_eq_false_iff_ne.mpr h
      rw [h1, List.lookup_cons, hpb]
      exact ih
    · have h1 : ((b, w) :: tl).filter (fun pe => pe.1 ≠ a) =
          (b, w) :: tl.filter (fun pe => pe.1 ≠ a) := by
        rw [List.filter_cons, if_pos (by simp [hb])]
      rw [h1, List.lookup_cons, List.lookup_cons]
      cases hpb : p == b with
      | true => rfl
      | false => exact ih

/-- cache[absolutePath] = value at a different key does not change a
lookup. -/
theorem lookup_assocSetOrAdd_ne (c : SpecifierCache) (a p : Path)
    (v : CacheEntry) (h : p ≠ a) :
    (assocSetOrAdd c a v).lookup p = c.lookup p := by
  unfold assocSetOrAdd
  split
  · exact lookup_map_overwrite_ne c a p v h
  · exact lookup_append_single_ne c a p v h

/-- A dependent that is present in some cache is reset to unprocessed by
setUnprocessedForDependents. -/
theorem cacheLookup_setUnprocessed (deps : List Path) (caches : Caches)
    (sp : Nat) (p : Path) (e : CacheEntry) (hmem : p ∈ deps)
    (he : cacheLookup caches sp p = some e) :
    cacheLookup (setUnprocessedForDependents deps caches) sp p =
      some CacheEntry.unprocessed := by
  unfold setUnprocessedForDependents
  rw [cacheLookup_mapCaches, he]
  simp [hmem]

/-- A matched stories entry has the removed path spliced out of its
dependents by removeDependentEdges. -/
theorem cacheLookup_removeEdges (imports : List Path) (ap : Path)
    (caches : Caches) (sp : Nat) (p : Path) (se : StoriesCacheEntry)
    (hp : cacheLookup caches sp p = some (.stories se))
    (hm : matchesStoriesFile imports p = true) :
    cacheLookup (removeDependentEdges imports ap caches) sp p =
      some (.stories { se with
        dependents := spliceRemove se.dependents ap }) := by
  unfold removeDependentEdges
  rw [cacheLookup_mapCaches, hp]
  simp [hm]

/-- A matched stories entry gets the docs path appended to its dependents
by extractDocsPush. -/
theorem cacheLookup_extractDocsPush (imports : List Path) (docPath : Path)
    (caches : Caches) (sp : Nat) (p : Path) (se : StoriesCacheEntry)
    (hp : cacheLookup caches sp p = some (.stories se))
    (hm : matchesStoriesFile imports p = true) :
    cacheLookup (extractDocsPush imports docPath caches) sp p =
      some (.stories { se with
        dependents := se.dependents ++ [docPath] }) := by
  unfold extractDocsPush
  rw [cacheLookup_mapCaches, hp]
  simp [hm]

/-- The caches produced by invalidate when the target entry is a stories
entry. -/
theorem invalidate_stories_caches (resolveImport : Path → Path) (spec : Nat)
    (ap : Path) (removed : Bool) (s : GenState) (c : SpecifierCache)
    (se : StoriesCacheEntry) (hc : s.caches.lookup spec = some c)
    (hce : c.lookup ap = some (.stories se)) :
    (invalidate resolveImport spec ap removed s).caches =
      if removed then
        (setUnprocessedForDependents se.dependents s.caches).map
          (fun sc => (sc.1, if sc.1 = spec then
            sc.2.filter (fun pe => pe.1 ≠ ap) else sc.2))
      else
        (setUnprocessedForDependents se.dependents s.caches).map
          (fun sc => (sc.1, if sc.1 = spec then
            assocSetOrAdd sc.2 ap CacheEntry.unprocessed else sc.2)) := by
  unfold invalidate
  rw [hc]
  dsimp only [Option.getD]
  rw [hce]

/-- The caches produced by invalidate with removed = true when the target
entry is a docs entry. -/
theorem invalidate_docs_removed_caches (resolveImport : Path → Path)
    (spec : Nat) (ap : Path) (s : GenState) (c : SpecifierCache)
    (d : DocsEntry) (hc : s.caches.lookup spec = some c)
    (hce : c.lookup ap = some (.docsEntry d)) :
    (invalidate resolveImport spec ap true s).caches =
      (removeDependentEdges (d.storiesImports.map resolveImport) ap
          s.caches).map
        (fun sc => (sc.1, if sc.1 = spec then
          sc.2.filter (fun pe => pe.1 ≠ ap) else sc.2)) := by
  unfold invalidate
  rw [hc]
  dsimp only [Option.getD]
  rw [hce]
  rfl

/-- The caches produced by invalidate with removed = false when the target
entry is not a stories entry. -/
theorem invalidate_changed_other_caches (resolveImport : Path → Path)
    (spec : Nat) (ap : Path) (s : GenState)
    (h : ∀ se, ((s.caches.lookup spec).getD []).lookup ap ≠
      some (.stories se)) :
    (invalidate resolveImport spec ap false s).caches =
      s.caches.map (fun sc => (sc.1, if sc.1 = spec then
        assocSetOrAdd sc.2 ap CacheEntry.unprocessed else sc.2)) := by
  unfold invalidate
  dsimp only
  cases hv : ((s.caches.lookup spec).getD []).lookup ap with
  | none => rfl
  | some ce =>
    cases ce with
    | unprocessed => rfl
    | stories se => exact absurd hv (h se)
    | docsEntry d => rfl
    | errorEntry e => rfl

/-- C6 counterexample: on the reachable duplicate-edge state (built by the
extract, change-invalidate, re-extract sequence of the C7 analysis) the
removal invalidation of D7 splices out only one of the two recorded
occurrences, so the dependents list of S7 still contains the path of D7 -
it is not removed from the dependents list, against the original claim. -/
theorem invalidate_removal_incomplete_cex :
    cacheLookup w6dupState.caches 0 "/w/S7.stories.ts" =
      some (.stories ⟨[.story w7story], ["/w/D7.mdx", "/w/D7.mdx"]⟩) ∧
    cacheLookup
        (invalidate (fun p => p) 0 "/w/D7.mdx" true w6dupState).caches
        0 "/w/S7.stories.ts" =
      some (.stories ⟨[.story w7story], ["/w/D7.mdx"]⟩) ∧
    "/w/D7.mdx" ∈ (["/w/D7.mdx"] : List Path) := by
  decide

/-- C6 (amended): invalidating a story file resets every dependent docs
file present in any specifier cache to unprocessed; and invalidating a
docs file with removed = true splices exactly one occurrence of its path
out of the dependents of every matched story dependency (the new list is
the old one with the first occurrence erased, its occurrence count lowered
by one), so the path is fully removed only when the edge was recorded
once. -/
theorem invalidate_completeness (resolveImport : Path → Path) (s : GenState) :
    (∀ spec storyPath se docPath removed sp e,
      cacheLookup s.caches spec storyPath = some (.stories se) →
      docPath ∈ se.dependents →
      docPath ≠ storyPath →
      cacheLookup s.caches sp docPath = some e →
      cacheLookup (invalidate resolveImport spec storyPath removed s).caches
          sp docPath = some CacheEntry.unprocessed) ∧
    (∀ spec docPath d sp p se,
      cacheLookup s.caches spec docPath = some (.docsEntry d) →
      cacheLookup s.caches sp p = some (.stories se) →
      p ≠ docPath →
      matchesStoriesFile (d.storiesImports.map resolveImport) p = true →
      docPath ∈ se.dependents →
      cacheLookup (invalidate resolveImport spec docPath true s).caches sp p =
        some (.stories { se with
          dependents := se.dependents.erase docPath }) ∧
      (se.dependents.erase docPath).count docPath =
        se.dependents.count docPath - 1) := by
  constructor
  · intro spec storyPath se docPath removed sp e hS hmem hne hpresent
    have hcc : ∃ c, s.caches.lookup spec = some c ∧
        c.lookup storyPath = some (.stories se) := by
      unfold cacheLookup at hS
      cases hx : s.caches.lookup spec with
      | none => rw [hx] at hS; exact absurd hS (by simp)
      | some c => rw [hx] at hS; exact ⟨c, rfl, hS⟩
    obtain ⟨c, hc, hce⟩ := hcc
    rw [invalidate_stories_caches resolveImport spec storyPath removed s c se
      hc hce]
    cases removed with
    | true =>
      rw [if_pos rfl,
        cacheLookup_mapSpec
          (fun n c2 => if n = spec then
            c2.filter (fun pe => pe.1 ≠ storyPath) else c2)
          (setUnprocessedForDependents se.dependents s.caches) sp docPath]
      have hinner : ∀ c2 : SpecifierCache,
          ((if sp = spec then c2.filter (fun pe => pe.1 ≠ storyPath)
            else c2).lookup docPath) = c2.lookup docPath := by
        intro c2
        by_cases hsp : sp = spec
        · rw [if_pos hsp, lookup_filter_ne c2 storyPath docPath hne]
        · rw [if_neg hsp]
      simp only [hinner]
      exact cacheLookup_setUnprocessed se.dependents s.caches sp docPath e
        hmem hpresent
    | false =>
      rw [if_neg (by simp),
        cacheLookup_mapSpec
          (fun n c2 => if n = spec then
            assocSetOrAdd c2 storyPath CacheEntry.unprocessed else c2)
          (setUnprocessedForDependents se.dependents s.caches) sp docPath]
      have hinner : ∀ c2 : SpecifierCache,
          ((if sp = spec then
            assocSetOrAdd c2 storyPath CacheEntry.unprocessed
            else c2).lookup docPath) = c2.lookup docPath := by
        intro c2
        by_cases hsp : sp = spec
        · rw [if_pos hsp,
            lookup_assocSetOrAdd_ne c2 storyPath docPath _ hne]
        · rw [if_neg hsp]
      simp only [hinner]
      exact cacheLookup_setUnprocessed se.dependents s.caches sp docPath e
        hmem hpresent
  · intro spec docPath d sp p se hD hSt hne hm hmemdep
    have hcc : ∃ c, s.caches.lookup spec = some c ∧
        c.lookup docPath = some (.docsEntry d) := by
      unfold cacheLookup at hD
      cases hx : s.caches.lookup spec with
      | none => rw [hx] at hD; exact absurd hD (by simp)
      | some c => rw [hx] at hD; exact ⟨c, rfl, hD⟩
    obtain ⟨c, hc, hce⟩ := hcc
    rw [invalidate_docs_removed_caches resolveImport spec docPath s c d hc hce,
      cacheLookup_mapSpec
        (fun n c2 => if n = spec then
          c2.filter (fun pe => pe.1 ≠ docPath) else c2)
        (removeDependentEdges (d.storiesImports.map resolveImport) docPath
          s.caches) sp p]
    have hinner : ∀ c2 : SpecifierCache,
        ((if sp = spec then c2.filter (fun pe => pe.1 ≠ docPath)
          else c2).lookup p) = c2.lookup p := by
      intro c2
      by_cases hsp : sp = spec
      · rw [if_pos hsp, lookup_filter_ne c2 docPath p hne]
      · rw [if_neg hsp]
    simp only [hinner]
    have hsplice : spliceRemove se.dependents docPath =
        se.dependents.erase docPath := by
      unfold spliceRemove
      rw [if_pos (by simpa using hmemdep)]
    constructor
    · have := cacheLookup_removeEdges (d.storiesImports.map resolveImport)
        docPath s.caches sp p se hSt hm
      rw [hsplice] at this
      exact this
    · exact List.count_erase_self docPath se.dependents

/-- C6 witness: the amended invalidation theorem applied at a concrete
state with one story file S, one docs file D depending on it, and the
identity path resolver. -/
theorem invalidate_completeness_witness :
    cacheLookup (invalidate (fun p => p) 0 "/w/S.stories.ts" false
        w6state).caches 0 "/w/D.mdx" = some CacheEntry.unprocessed ∧
    (cacheLookup (invalidate (fun p => p) 0 "/w/D.mdx" true w6state).caches
        0 "/w/S.stories.ts" =
      some (.stories ⟨[.story w6story],
        (["/w/D.mdx"] : List Path).erase "/w/D.mdx"⟩) ∧
      ((["/w/D.mdx"] : List Path).erase "/w/D.mdx").count "/w/D.mdx" =
        (["/w/D.mdx"] : List Path).count "/w/D.mdx" - 1) :=
  ⟨(invalidate_completeness (fun p => p) w6state).1 0 "/w/S.stories.ts" w6se
      "/w/D.mdx" false 0 (.docsEntry w6docs) rfl (by decide) (by decide) rfl,
   (invalidate_completeness (fun p => p) w6state).2 0 "/w/D.mdx" w6docs 0
      "/w/S.stories.ts" w6se rfl rfl (by decide) (by decide) (by decide)⟩

/-- C7 counterexample: starting from extracted S7 and unprocessed D7,
extracting D7 (which appends the dependency edge), invalidating D7 as a
changed file (removed = false, which removes nothing), and re-extracting
D7 leaves the dependents list of S7 holding the same docs path twice -
a duplicated edge, against the claimed no-stale-no-duplicate invariant. -/
theorem dependents_duplicate_cex :
    cacheLookup
      (extractDocsPush ["/w/S7.stories.ts"] "/w/D7.mdx"
        (invalidate (fun p => p) 0 "/w/D7.mdx" false
          ⟨writeCacheEntry
            (extractDocsPush ["/w/S7.stories.ts"] "/w/D7.mdx" w7caches)
            0 "/w/D7.mdx" (.docsEntry w7docs), none, none⟩).caches)
      0 "/w/S7.stories.ts" =
      some (.stories ⟨[.story w7story], ["/w/D7.mdx", "/w/D7.mdx"]⟩) ∧
    ¬ (["/w/D7.mdx", "/w/D7.mdx"] : List Path).Nodup := by
  decide

/-- C7 (amended): a dependents append has a matching removal only on a
removed = true invalidation of the docs file; invalidating a changed
(removed = false) file whose entry is not a stories entry leaves every
stories cache entry, dependents included, unchanged, while every
re-extraction of a docs file appends its path to each matched dependency
unconditionally (so an extract, change-invalidate, re-extract sequence
duplicates the edge); the removal path splices out exactly one occurrence. -/
theorem dependents_edges_policy (resolveImport : Path → Path) :
    (∀ spec ap s sp q se,
      (∀ se2, ((s.caches.lookup spec).getD []).lookup ap ≠
        some (.stories se2)) →
      cacheLookup s.caches sp q = some (.stories se) →
      q ≠ ap →
      cacheLookup (invalidate resolveImport spec ap false s).caches sp q =
        some (.stories se)) ∧
    (∀ imports docPath caches sp p se,
      cacheLookup caches sp p = some (.stories se) →
      matchesStoriesFile imports p = true →
      cacheLookup (extractDocsPush imports docPath caches) sp p =
        some (.stories { se with
          dependents := se.dependents ++ [docPath] })) ∧
    (∀ (xs : List Path) (x : Path), x ∈ xs →
      spliceRemove xs x = xs.erase x) := by
  refine ⟨?_, ?_, ?_⟩
  · intro spec ap s sp q se hnot hq hne
    rw [invalidate_changed_other_caches resolveImport spec ap s hnot,
      cacheLookup_mapSpec
        (fun n c2 => if n = spec then
          assocSetOrAdd c2 ap CacheEntry.unprocessed else c2)
        s.caches sp q]
    have hinner : ∀ c2 : SpecifierCache,
        ((if sp = spec then assocSetOrAdd c2 ap CacheEntry.unprocessed
          else c2).lookup q) = c2.lookup q := by
      intro c2
      by_cases hsp : sp = spec
      · rw [if_pos hsp, lookup_assocSetOrAdd_ne c2 ap q _ hne]
      · rw [if_neg hsp]
    simp only [hinner]
    exact hq
  · intro imports docPath caches sp p se hp hm
    exact cacheLookup_extractDocsPush imports docPath caches sp p se hp hm
  · intro xs x hmem
    unfold spliceRemove
    rw [if_pos (by simpa using hmem)]

/-- C7 witness: the amended theorem applied at a concrete push of a docs
path onto a matched story dependency. -/
theorem dependents_edges_policy_witness :
    cacheLookup (extractDocsPush ["/w/W.stories.ts"] "/w/WD.mdx"
      [(0, [("/w/W.stories.ts",
        CacheEntry.stories ⟨[], []⟩)])]) 0 "/w/W.stories.ts" =
      some (.stories ⟨[], [] ++ ["/w/WD.mdx"]⟩) :=
  (dependents_edges_policy (fun p => p)).2.1 ["/w/W.stories.ts"] "/w/WD.mdx"
    [(0, [("/w/W.stories.ts", CacheEntry.stories ⟨[], []⟩)])] 0
    "/w/W.stories.ts" ⟨[], []⟩ rfl (by decide)

end Storybook
